import Mathlib

/-!
Verification of the redis-dumper streaming export pipeline.

Shallow embedding of `internal/exporter/storage.go` (the partitioned sink,
`FileManager`) and of the export loops of the `RedisExporter`
(`ExportKeysOnly`, `ExportKeysOnlyByPattern`, `ExportByPattern`,
`exportKey`, `exportKeyData`).

Modelling conventions:
  * Go `int64` / `int` fields become `Int`.
  * Filesystem and database side effects are tracked as observation fields
    of the state: `rows` is the sequence of data rows written to the
    current run's data files (with the `partition_id` column stamped at
    write time), `dataFiles` the list of physical data files created, and
    `metadataFileWritten` whether the final `export_metadata.json` was
    written.  OS-level failures (file creation, stat, close) are not
    modelled and those operations succeed; deterministic failures coded in
    the source (the `unsupported format` branches) are modelled exactly.
  * Fallible Go functions returning `error` become `Except String _`.
  * Wall-clock derived values (`StartTime`, `EndTime`, `FileSizeBytes`,
    the Hive partition path components) are omitted from `PartitionInfo`;
    no claim mentions them.
-/

/-- `RedisRecord` from storage.go: the unified schema for all Redis data. -/
structure RedisRecord where
  key : String
  typ : String
  value : String
  ttlSeconds : Int
  exportedAt : String
deriving Repr, DecidableEq

/-- One row of the output data file, columns as written by `writeCSVRecord`
/ `writeDuckDBRecord`: `key, type, value, ttl_seconds, exported_at,
partition_id`.  The `partition_id` column is stamped from the manager's
current `partitionID` at the time the row is written. -/
structure CSVRow where
  key : String
  typ : String
  value : String
  ttlSeconds : Int
  exportedAt : String
  partitionId : Int
deriving Repr, DecidableEq

/-- `PartitionInfo` accounting entry appended to the run metadata on each
rotation (time and byte-size fields omitted, see the header comment). -/
structure PartitionInfo where
  partitionID : Int
  dataType : String
  fileName : String
  recordCount : Int
deriving Repr, DecidableEq

/-- State of `FileManager` from storage.go.  `csvOpen` models
`csvWriter != nil` (and `csvFile != nil`, which are set and cleared
together); `dbOpen` models `db != nil`.  `format` and `maxRecords` are the
`StorageConfig` fields.  `partitions` is `metadata.Partitions`. -/
structure FileManager where
  format : String
  maxRecords : Int
  recordCount : Int
  partitionID : Int
  partitions : List PartitionInfo
  metadataPattern : String
  metadataTotalKeys : Int
  csvOpen : Bool
  dbOpen : Bool
  currentFileName : String
  dataFiles : List String
  rows : List CSVRow
  metadataFileWritten : Bool
deriving Repr, DecidableEq

/-- Zero-pad a (nonnegative) partition id to width 4, as `%04d` does. -/
def pad4 (n : Int) : String :=
  let s := toString n.toNat
  if s.length < 4 then String.mk (List.replicate (4 - s.length) (Char.ofNat 48)) ++ s else s

/-- File name chosen by `initializeCSVWriter`. -/
def csvFileName (pid : Int) : String :=
  "redis_data_part_" ++ pad4 pid ++ ".csv"

/-- File name chosen by `rotateDuckDBWriter` for the Parquet export. -/
def parquetFileName (pid : Int) : String :=
  "redis_data_part_" ++ pad4 pid ++ ".parquet"

/-- `NewFileManager`: fresh manager with zero counters and empty metadata. -/
def NewFileManager (format : String) (maxRecords : Int) : FileManager :=
  { format := format
    maxRecords := maxRecords
    recordCount := 0
    partitionID := 0
    partitions := []
    metadataPattern := ""
    metadataTotalKeys := 0
    csvOpen := false
    dbOpen := false
    currentFileName := ""
    dataFiles := []
    rows := []
    metadataFileWritten := false }

/-- `initializeCSVWriter`: creates the partition's CSV file (recorded in
`dataFiles`) and opens the writer.  The header row is format plumbing and
is not a data row. -/
def initializeCSVWriter (fm : FileManager) : FileManager :=
  let name := csvFileName fm.partitionID
  { fm with csvOpen := true, currentFileName := name,
            dataFiles := fm.dataFiles ++ [name] }

/-- `initializeDuckDBWriter`: opens the in-memory DuckDB table.  No
physical file is created until rotation. -/
def initializeDuckDBWriter (fm : FileManager) : FileManager :=
  { fm with dbOpen := true }

/-- `initializeWriter`: increments `partitionID`, then dispatches on the
configured format; an unknown format is an error. -/
def initializeWriter (fm : FileManager) : Except String FileManager :=
  let fm := { fm with partitionID := fm.partitionID + 1 }
  if fm.format = "csv" then Except.ok (initializeCSVWriter fm)
  else if fm.format = "parquet" then Except.ok (initializeDuckDBWriter fm)
  else Except.error ("unsupported format: " ++ fm.format)

/-- The output row built by `writeCSVRecord` / `writeDuckDBRecord` for a
record, stamped with the given partition id. -/
def toRow (r : RedisRecord) (pid : Int) : CSVRow :=
  { key := r.key, typ := r.typ, value := r.value,
    ttlSeconds := r.ttlSeconds, exportedAt := r.exportedAt,
    partitionId := pid }

/-- `writeCSVRecord`: appends the row (stamped with the current
`partitionID`) and increments `recordCount`. -/
def writeCSVRecord (fm : FileManager) (r : RedisRecord) : FileManager :=
  { fm with rows := fm.rows ++ [toRow r fm.partitionID],
            recordCount := fm.recordCount + 1 }

/-- `writeDuckDBRecord`: inserts the row into the in-memory table (same
observable row content and counter update as the CSV path). -/
def writeDuckDBRecord (fm : FileManager) (r : RedisRecord) : FileManager :=
  { fm with rows := fm.rows ++ [toRow r fm.partitionID],
            recordCount := fm.recordCount + 1 }

/-- `rotateCSVWriter`: if a CSV file is open, appends its `PartitionInfo`
(carrying the current `recordCount`) to the metadata and closes the file;
in all cases resets `recordCount` to `0`. -/
def rotateCSVWriter (fm : FileManager) : FileManager :=
  let fm :=
    if fm.csvOpen then
      { fm with
        partitions := fm.partitions ++
          [{ partitionID := fm.partitionID, dataType := "redis_data",
             fileName := fm.currentFileName, recordCount := fm.recordCount }],
        csvOpen := false }
    else fm
  { fm with recordCount := 0 }

/-- `rotateDuckDBWriter`: if the table is open, exports it to a Parquet
file (recorded in `dataFiles`), appends its `PartitionInfo` and closes the
connection, resetting `recordCount`; a nil connection is a no-op. -/
def rotateDuckDBWriter (fm : FileManager) : FileManager :=
  if fm.dbOpen then
    let name := parquetFileName fm.partitionID
    { fm with
      dataFiles := fm.dataFiles ++ [name],
      partitions := fm.partitions ++
        [{ partitionID := fm.partitionID, dataType := "redis_data",
           fileName := name, recordCount := fm.recordCount }],
      dbOpen := false,
      recordCount := 0 }
  else fm

/-- `RotateWriter`: nothing to rotate when `recordCount == 0`; otherwise
dispatches on the format, erroring on an unknown format. -/
def RotateWriter (fm : FileManager) : Except String FileManager :=
  if fm.recordCount = 0 then Except.ok fm
  else if fm.format = "csv" then Except.ok (rotateCSVWriter fm)
  else if fm.format = "parquet" then Except.ok (rotateDuckDBWriter fm)
  else Except.error ("unsupported format: " ++ fm.format)

/-- `WriteRecord`: lazily initializes the writer on first use, rotates
(and re-initializes) when `recordCount >= MaxRecords` BEFORE accepting the
incoming record, then writes via the format-specific writer. -/
def WriteRecord (fm : FileManager) (r : RedisRecord) : Except String FileManager :=
  match (if fm.csvOpen = false ∧ fm.dbOpen = false
         then initializeWriter fm else Except.ok fm) with
  | Except.error e => Except.error e
  | Except.ok fm1 =>
    match (if fm1.maxRecords ≤ fm1.recordCount then
             match RotateWriter fm1 with
             | Except.error e => Except.error e
             | Except.ok fm2 => initializeWriter fm2
           else Except.ok fm1) with
    | Except.error e => Except.error e
    | Except.ok fm3 =>
      if fm3.format = "csv" then Except.ok (writeCSVRecord fm3 r)
      else if fm3.format = "parquet" then Except.ok (writeDuckDBRecord fm3 r)
      else Except.error ("unsupported format: " ++ fm3.format)

/-- `FileManager.Close`: performs a final rotation when records are
buffered (a rotation error is only printed, not returned), then writes the
run metadata file.  `metadataWriteOk` models whether creating/encoding
`export_metadata.json` succeeds at the OS level; on failure the error is
returned. -/
def FileManager.Close (fm : FileManager) (metadataWriteOk : Bool) :
    FileManager × Option String :=
  let fm :=
    if 0 < fm.recordCount then
      match RotateWriter fm with
      | Except.ok fm' => fm'
      | Except.error _ => fm
    else fm
  if metadataWriteOk then
    ({ fm with metadataFileWritten := true }, none)
  else (fm, some "failed to write metadata")

/-- `RedisExporter.Close` from the exporter: the error returned by
`fileManager.Close` is only logged (`log.Printf`), and the function
returns the Redis client's close error instead. -/
def RedisExporter.Close (fm : FileManager) (metadataWriteOk : Bool)
    (clientCloseErr : Option String) : FileManager × Option String :=
  let closed := FileManager.Close fm metadataWriteOk
  (closed.1, clientCloseErr)

/-- Iterate `WriteRecord` over a list of records, stopping at the first
error (each caller checks the returned error). -/
def writeAll (fm : FileManager) : List RedisRecord → Except String FileManager
  | [] => Except.ok fm
  | r :: rs =>
    match WriteRecord fm r with
    | Except.error e => Except.error e
    | Except.ok fm' => writeAll fm' rs

/-- Number of completed-or-open partitions: entries already rotated into
the metadata, plus the currently open one if a writer is open. -/
def completedOrOpen (fm : FileManager) : Nat :=
  fm.partitions.length + (if fm.csvOpen || fm.dbOpen then 1 else 0)

/-- Sum of the `record_count` fields over a partition list. -/
def sumRecordCounts (ps : List PartitionInfo) : Int :=
  (ps.map (fun p => p.recordCount)).sum

/-- Default row used with `List.getD` when indexing written rows. -/
def dummyRow : CSVRow :=
  { key := "", typ := "", value := "", ttlSeconds := 0, exportedAt := "",
    partitionId := 0 }

/-!  Exporter side (`RedisExporter`, src/unnamed/part_001).  Redis replies
are modelled as data: a key's `TYPE`/`TTL` replies as `Except` values (a
per-key lookup can fail), and the value of a key, together with the way
its sub-scan pages arrive, as a `RedisValue`.  TTL durations are `Int`
nanoseconds, as Go's `time.Duration`. -/

/-- Go `int64(d.Seconds())` for a `time.Duration` `d` in nanoseconds:
seconds truncated toward zero. -/
def durSeconds (ns : Int) : Int := Int.tdiv ns 1000000000

/-- `estimateKeySize`: rough size estimate from the key length only. -/
def estimateKeySize (key keyType : String) : Int :=
  if keyType = "string" then (key.length : Int)
  else if keyType = "set" ∨ keyType = "list" ∨ keyType = "hash" ∨ keyType = "zset"
    then (key.length : Int) * 10
  else (key.length : Int)

/-- The record built for one key by the keys-only export loops
(`ExportKeysOnly` / `ExportKeysOnlyByPattern`): TTL `> 0` is truncated to
whole seconds, otherwise the `-1` sentinel; the value is the size
estimate. -/
def keysOnlyRecord (key keyType : String) (ttlNs : Int) (ts : String) : RedisRecord :=
  { key := key, typ := keyType,
    value := "size_estimate=" ++ toString (estimateKeySize key keyType),
    ttlSeconds := if 0 < ttlNs then durSeconds ttlNs else -1,
    exportedAt := ts }

instance {ε α : Type} [DecidableEq ε] [DecidableEq α] : DecidableEq (Except ε α) := fun a b =>
  match a, b with
  | Except.ok x, Except.ok y =>
      if h : x = y then isTrue (by rw [h])
      else isFalse (fun hh => h (Except.ok.inj hh))
  | Except.error x, Except.error y =>
      if h : x = y then isTrue (by rw [h])
      else isFalse (fun hh => h (Except.error.inj hh))
  | Except.ok _, Except.error _ => isFalse (fun hh => Except.noConfusion hh)
  | Except.error _, Except.ok _ => isFalse (fun hh => Except.noConfusion hh)

/-- Per-key pipeline results for the metadata batcher: the `TYPE` reply
and the `TTL` reply (nanoseconds), either of which can fail per key. -/
structure KeyMeta where
  key : String
  typeResult : Except String String
  ttlResult : Except String Int
deriving Repr, DecidableEq

/-- Per-batch key loop of `ExportKeysOnly` (part_001 l.167-202): a failed
type or TTL lookup skips the key; a failed `WriteRecord` is logged and the
key skipped (`continue`) without incrementing the count; no error is
returned from this loop. -/
def exportKeysOnlyBatch (ts : String) :
    List KeyMeta → FileManager → Nat → FileManager × Nat
  | [], fm, count => (fm, count)
  | km :: rest, fm, count =>
    match km.typeResult with
    | Except.error _ => exportKeysOnlyBatch ts rest fm count
    | Except.ok keyType =>
      match km.ttlResult with
      | Except.error _ => exportKeysOnlyBatch ts rest fm count
      | Except.ok ttlNs =>
        match WriteRecord fm (keysOnlyRecord km.key keyType ttlNs ts) with
        | Except.error _ => exportKeysOnlyBatch ts rest fm count
        | Except.ok fm' => exportKeysOnlyBatch ts rest fm' (count + 1)

/-- `ExportKeysOnly` over the successive scan pages (the cursor loop): a
scan error aborts the run with `failed to scan keys`; each page is handed
to the per-batch loop. -/
def ExportKeysOnlyModel (ts : String) :
    List (Except String (List KeyMeta)) → FileManager → Nat →
    Except String (FileManager × Nat)
  | [], fm, count => Except.ok (fm, count)
  | Except.error e :: _, _, _ => Except.error ("failed to scan keys: " ++ e)
  | Except.ok keys :: rest, fm, count =>
    let out := exportKeysOnlyBatch ts keys fm count
    ExportKeysOnlyModel ts rest out.1 out.2

/-- Per-batch key loop of `ExportKeysOnlyByPattern` (part_001 l.271-299):
lookup failures skip the key; the `WriteRecord` error is discarded with
`_ =` and the count is incremented regardless. -/
def exportKeysOnlyByPatternBatch (ts : String) :
    List KeyMeta → FileManager → Nat → FileManager × Nat
  | [], fm, count => (fm, count)
  | km :: rest, fm, count =>
    match km.typeResult with
    | Except.error _ => exportKeysOnlyByPatternBatch ts rest fm count
    | Except.ok keyType =>
      match km.ttlResult with
      | Except.error _ => exportKeysOnlyByPatternBatch ts rest fm count
      | Except.ok ttlNs =>
        match WriteRecord fm (keysOnlyRecord km.key keyType ttlNs ts) with
        | Except.error _ => exportKeysOnlyByPatternBatch ts rest fm (count + 1)
        | Except.ok fm' => exportKeysOnlyByPatternBatch ts rest fm' (count + 1)

/-- `ExportKeysOnlyByPattern` over the successive scan pages. -/
def ExportKeysOnlyByPatternModel (ts : String) :
    List (Except String (List KeyMeta)) → FileManager → Nat →
    Except String (FileManager × Nat)
  | [], fm, count => Except.ok (fm, count)
  | Except.error e :: _, _, _ => Except.error ("failed to scan keys: " ++ e)
  | Except.ok keys :: rest, fm, count =>
    let out := exportKeysOnlyByPatternBatch ts keys fm count
    ExportKeysOnlyByPatternModel ts rest out.1 out.2

/-- A key's value as the live client delivers it to `exportKeyData`.  For
`set`/`hash`/`zset` the nested lists are the successive sub-scan reply
pages (for `hash` and `zset` each page is the flat alternating
field/value resp. member/score list the scan returns); for `list` the
elements in index order. -/
inductive RedisValue where
  | str (val : String)
  | set (pages : List (List String))
  | hash (pages : List (List String))
  | zset (pages : List (List String))
  | list (items : List String)
  | other (typeName : String)
deriving Repr, DecidableEq

/-- The `TYPE` reply corresponding to a value. -/
def RedisValue.typeName : RedisValue → String
  | .str _ => "string"
  | .set _ => "set"
  | .hash _ => "hash"
  | .zset _ => "zset"
  | .list _ => "list"
  | .other t => t

/-- Inner loop of the `set` branch of `exportKeyData`: one `set_member`
record per member, key suffixed `:member:<member>`. -/
def exportSetPage (key ts : String) :
    List String → FileManager → Int → Except String (FileManager × Int)
  | [], fm, size => Except.ok (fm, size)
  | member :: rest, fm, size =>
    match WriteRecord fm
        { key := key ++ ":member:" ++ member, typ := "set_member",
          value := member, ttlSeconds := -1, exportedAt := ts } with
    | Except.error e => Except.error e
    | Except.ok fm' => exportSetPage key ts rest fm' (size + (member.length : Int))

/-- Page loop of the `set` branch (`SSCAN` until cursor 0). -/
def exportSetPages (key ts : String) :
    List (List String) → FileManager → Int → Except String (FileManager × Int)
  | [], fm, size => Except.ok (fm, size)
  | page :: rest, fm, size =>
    match exportSetPage key ts page fm size with
    | Except.error e => Except.error e
    | Except.ok out => exportSetPages key ts rest out.1 out.2

/-- Inner loop of the `hash` branch: the page is the flat alternating
field/value list; `for i := 0; i < len; i += 2` with the `i+1 < len`
guard, so a trailing unpaired element is dropped.  One `hash_field`
record per pair, key suffixed `:field:<field>`. -/
def exportHashPage (key ts : String) :
    List String → FileManager → Int → Except String (FileManager × Int)
  | field :: value :: rest, fm, size =>
    match WriteRecord fm
        { key := key ++ ":field:" ++ field, typ := "hash_field",
          value := value, ttlSeconds := -1, exportedAt := ts } with
    | Except.error e => Except.error e
    | Except.ok fm' =>
        exportHashPage key ts rest fm' (size + (field.length : Int) + (value.length : Int))
  | _, fm, size => Except.ok (fm, size)

/-- Page loop of the `hash` branch (`HSCAN` until cursor 0). -/
def exportHashPages (key ts : String) :
    List (List String) → FileManager → Int → Except String (FileManager × Int)
  | [], fm, size => Except.ok (fm, size)
  | page :: rest, fm, size =>
    match exportHashPage key ts page fm size with
    | Except.error e => Except.error e
    | Except.ok out => exportHashPages key ts rest out.1 out.2

/-- Inner loop of the `zset` branch: alternating member/score pairs; the
rank counter is the sequential order of emission and persists across
pages. -/
def exportZSetPage (key ts : String) :
    List String → FileManager → Int → Int → Except String (FileManager × Int × Int)
  | member :: scoreStr :: rest, fm, rank, size =>
    match WriteRecord fm
        { key := key ++ ":member:" ++ member, typ := "zset_member",
          value := "score=" ++ scoreStr ++ ",rank=" ++ toString rank,
          ttlSeconds := -1, exportedAt := ts } with
    | Except.error e => Except.error e
    | Except.ok fm' =>
        exportZSetPage key ts rest fm' (rank + 1) (size + (member.length : Int))
  | _, fm, rank, size => Except.ok (fm, rank, size)

/-- Page loop of the `zset` branch (`ZSCAN` until cursor 0). -/
def exportZSetPages (key ts : String) :
    List (List String) → FileManager → Int → Int → Except String (FileManager × Int)
  | [], fm, _, size => Except.ok (fm, size)
  | page :: rest, fm, rank, size =>
    match exportZSetPage key ts page fm rank size with
    | Except.error e => Except.error e
    | Except.ok out => exportZSetPages key ts rest out.1 out.2.1 out.2.2

/-- `list` branch: one `list_item` record per element, key suffixed with
the absolute index.  (Go fetches the elements with `LRANGE` in chunks of
1000 purely to bound memory; the emitted record sequence is one record
per element in index order, which is what is modelled.) -/
def exportListItems (key ts : String) :
    List String → FileManager → Int → Int → Except String (FileManager × Int)
  | [], fm, _, size => Except.ok (fm, size)
  | v :: rest, fm, idx, size =>
    match WriteRecord fm
        { key := key ++ ":index:" ++ toString idx, typ := "list_item",
          value := v, ttlSeconds := -1, exportedAt := ts } with
    | Except.error e => Except.error e
    | Except.ok fm' => exportListItems key ts rest fm' (idx + 1) (size + (v.length : Int))

/-- `exportKeyData` (part_001 l.414-574): type-directed flattening.  Go
switches on the `TYPE` reply string, which corresponds one-to-one to the
`RedisValue` constructor; the `default` branch (`other`) emits nothing and
returns `(0, nil)`. -/
def exportKeyData (fm : FileManager) (key : String) (v : RedisValue)
    (ts : String) : Except String (FileManager × Int) :=
  match v with
  | .str val => Except.ok (fm, (val.length : Int))
  | .set pages => exportSetPages key ts pages fm 0
  | .hash pages => exportHashPages key ts pages fm 0
  | .zset pages => exportZSetPages key ts pages fm 0 0
  | .list items => exportListItems key ts items fm 0 0
  | .other _ => Except.ok (fm, 0)

/-- `exportKey` (part_001 l.377-412): normalizes the TTL, exports the
detailed data, then writes the per-key summary record (`size=<n>`). -/
def exportKey (fm : FileManager) (key : String) (v : RedisValue)
    (ttlNs : Int) (ts : String) : Except String FileManager :=
  let ttlSeconds : Int := if 0 < ttlNs then durSeconds ttlNs else -1
  match exportKeyData fm key v ts with
  | Except.error e => Except.error e
  | Except.ok out =>
      WriteRecord out.1
        { key := key, typ := v.typeName,
          value := "size=" ++ toString out.2,
          ttlSeconds := ttlSeconds, exportedAt := ts }

/-- Per-batch key loop of `ExportByPattern` (part_001 l.339-350): a
failed `exportKey` is logged and the key skipped (`continue`); the count
is incremented only on success. -/
def exportByPatternBatch (ts : String) :
    List (String × RedisValue × Int) → FileManager → Nat → FileManager × Nat
  | [], fm, count => (fm, count)
  | (key, v, ttlNs) :: rest, fm, count =>
    match exportKey fm key v ttlNs ts with
    | Except.error _ => exportByPatternBatch ts rest fm count
    | Except.ok fm' => exportByPatternBatch ts rest fm' (count + 1)

/-- `ExportByPattern` over the successive scan pages: a scan error aborts
the run; per-key errors do not. -/
def ExportByPatternModel (ts : String) :
    List (Except String (List (String × RedisValue × Int))) → FileManager → Nat →
    Except String (FileManager × Nat)
  | [], fm, count => Except.ok (fm, count)
  | Except.error e :: _, _, _ => Except.error ("failed to scan keys: " ++ e)
  | Except.ok keys :: rest, fm, count =>
    let out := exportByPatternBatch ts keys fm count
    ExportByPatternModel ts rest out.1 out.2

/-- Observation of a run result: the rows written and the key count. -/
def runObs (e : Except String (FileManager × Nat)) :
    Except String (List CSVRow × Nat) :=
  match e with
  | Except.error err => Except.error err
  | Except.ok out => Except.ok (out.1.rows, out.2)

/-- Observation of an `exportKey` result: `true` iff it returned no error. -/
def isOkFM : Except String FileManager → Bool
  | Except.ok _ => true
  | Except.error _ => false

/-- Observation of an `exportKey` result: how many rows the sink holds
afterwards (`0` for the error case, which no claim exercises). -/
def rowsWritten : Except String FileManager → Nat
  | Except.ok fm => fm.rows.length
  | Except.error _ => 0

/-- Invariant of a CSV-format run after `k` successful `WriteRecord`
calls from a fresh manager with maximum `m` records per partition: the
open partition holds `(k-1) % m + 1` records, `(k-1) / m` partitions are
completed (each holding exactly `m` records), the partition id counter is
`(k-1) / m + 1`, and row `i` was stamped with partition id `i / m + 1`. -/
def InvCSV (m k : Nat) (fm : FileManager) : Prop :=
  fm.format = "csv" ∧ fm.maxRecords = (m : Int) ∧ fm.dbOpen = false ∧
  fm.rows.length = k ∧
  (∀ i, i < k → (fm.rows.getD i dummyRow).partitionId = ((i / m : Nat) : Int) + 1) ∧
  (∀ p ∈ fm.partitions, p.recordCount = (m : Int)) ∧
  ((fm.csvOpen = false ∧ k = 0 ∧ fm.recordCount = 0 ∧ fm.partitions = [] ∧
      fm.partitionID = 0) ∨
   (fm.csvOpen = true ∧ 1 ≤ k ∧
      fm.recordCount = (((k - 1) % m : Nat) : Int) + 1 ∧
      fm.partitions.length = (k - 1) / m ∧
      fm.partitionID = (((k - 1) / m : Nat) : Int) + 1))

/-!  Helper lemmas about the CSV write path. -/

lemma initializeWriter_csv_ok (fm : FileManager) (h : fm.format = "csv") :
    ∃ g, initializeWriter fm = Except.ok g ∧
      g.format = "csv" ∧ g.maxRecords = fm.maxRecords ∧
      g.recordCount = fm.recordCount ∧ g.rows = fm.rows ∧
      g.partitionID = fm.partitionID + 1 ∧ g.partitions = fm.partitions := by
  refine ⟨initializeCSVWriter { fm with partitionID := fm.partitionID + 1 },
    ?_, ?_, ?_, ?_, ?_, ?_, ?_⟩ <;>
    simp [initializeWriter, initializeCSVWriter, h]

lemma rotateWriter_csv_ok (fm : FileManager) (h : fm.format = "csv") :
    ∃ g, RotateWriter fm = Except.ok g ∧
      g.format = "csv" ∧ g.maxRecords = fm.maxRecords ∧
      g.recordCount = 0 ∧ g.rows = fm.rows ∧
      g.partitionID = fm.partitionID ∧
      (∃ tl, g.partitions = fm.partitions ++ tl) := by
  by_cases h0 : fm.recordCount = 0
  · exact ⟨fm, by simp [RotateWriter, h0], h, rfl, h0, rfl, rfl, [], by simp⟩
  · by_cases h1 : fm.csvOpen
    · refine ⟨rotateCSVWriter fm, by simp [RotateWriter, h0, h], ?_, ?_, ?_, ?_, ?_,
        ⟨[{ partitionID := fm.partitionID, dataType := "redis_data",
            fileName := fm.currentFileName, recordCount := fm.recordCount }],
          by simp [rotateCSVWriter, h1]⟩⟩ <;> simp [rotateCSVWriter, h1, h]
    · refine ⟨rotateCSVWriter fm, by simp [RotateWriter, h0, h], ?_, ?_, ?_, ?_, ?_,
        ⟨[], by simp [rotateCSVWriter, h1]⟩⟩ <;> simp [rotateCSVWriter, h1, h]

lemma writeRecord_csv_ok (fm : FileManager) (r : RedisRecord) (h : fm.format = "csv") :
    ∃ fm', WriteRecord fm r = Except.ok fm' ∧
      fm'.rows = fm.rows ++ [toRow r fm'.partitionID] ∧
      fm'.format = "csv" ∧
      (∃ tl, fm'.partitions = fm.partitions ++ tl) := by
  unfold WriteRecord
  by_cases h0 : fm.csvOpen = false ∧ fm.dbOpen = false
  · rw [if_pos h0]
    obtain ⟨g1, e1, hf1, hm1, hc1, hr1, hp1, hq1⟩ := initializeWriter_csv_ok fm h
    rw [e1]; dsimp only
    by_cases h1 : g1.maxRecords ≤ g1.recordCount
    · rw [if_pos h1]
      obtain ⟨g2, e2, hf2, hm2, hc2, hr2, hp2, tl2, hq2⟩ := rotateWriter_csv_ok g1 hf1
      rw [e2]; dsimp only
      obtain ⟨g3, e3, hf3, hm3, hc3, hr3, hp3, hq3⟩ := initializeWriter_csv_ok g2 hf2
      rw [e3]; dsimp only
      rw [if_pos hf3]
      exact ⟨writeCSVRecord g3 r, rfl,
        by simp [writeCSVRecord, hr3, hr2, hr1],
        by simp [writeCSVRecord, hf3],
        ⟨tl2, by simp [writeCSVRecord, hq3, hq2, hq1]⟩⟩
    · rw [if_neg h1]; dsimp only
      rw [if_pos hf1]
      exact ⟨writeCSVRecord g1 r, rfl,
        by simp [writeCSVRecord, hr1],
        by simp [writeCSVRecord, hf1],
        ⟨[], by simp [writeCSVRecord, hq1]⟩⟩
  · rw [if_neg h0]; dsimp only
    by_cases h1 : fm.maxRecords ≤ fm.recordCount
    · rw [if_pos h1]
      obtain ⟨g2, e2, hf2, hm2, hc2, hr2, hp2, tl2, hq2⟩ := rotateWriter_csv_ok fm h
      rw [e2]; dsimp only
      obtain ⟨g3, e3, hf3, hm3, hc3, hr3, hp3, hq3⟩ := initializeWriter_csv_ok g2 hf2
      rw [e3]; dsimp only
      rw [if_pos hf3]
      exact ⟨writeCSVRecord g3 r, rfl,
        by simp [writeCSVRecord, hr3, hr2],
        by simp [writeCSVRecord, hf3],
        ⟨tl2, by simp [writeCSVRecord, hq3, hq2]⟩⟩
    · rw [if_neg h1]; dsimp only
      rw [if_pos h]
      exact ⟨writeCSVRecord fm r, rfl,
        by simp [writeCSVRecord],
        by simp [writeCSVRecord, h],
        ⟨[], by simp [writeCSVRecord]⟩⟩

lemma rotateWriter_extends (fm g : FileManager) (e : RotateWriter fm = Except.ok g) :
    (∃ tl, g.partitions = fm.partitions ++ tl) ∧
    (∃ fs, g.dataFiles = fm.dataFiles ++ fs) := by
  unfold RotateWriter at e
  by_cases h0 : fm.recordCount = 0
  · rw [if_pos h0] at e; cases e; exact ⟨⟨[], by simp⟩, ⟨[], by simp⟩⟩
  · rw [if_neg h0] at e
    by_cases h1 : fm.format = "csv"
    · rw [if_pos h1] at e; cases e
      by_cases h2 : fm.csvOpen
      · exact ⟨⟨[{ partitionID := fm.partitionID, dataType := "redis_data",
                   fileName := fm.currentFileName, recordCount := fm.recordCount }],
          by simp [rotateCSVWriter, h2]⟩, ⟨[], by simp [rotateCSVWriter, h2]⟩⟩
      · exact ⟨⟨[], by simp [rotateCSVWriter, h2]⟩, ⟨[], by simp [rotateCSVWriter, h2]⟩⟩
    · rw [if_neg h1] at e
      by_cases h2 : fm.format = "parquet"
      · rw [if_pos h2] at e; cases e
        by_cases h3 : fm.dbOpen
        · exact ⟨⟨[{ partitionID := fm.partitionID, dataType := "redis_data",
                     fileName := parquetFileName fm.partitionID, recordCount := fm.recordCount }],
            by simp [rotateDuckDBWriter, h3]⟩,
            ⟨[parquetFileName fm.partitionID], by simp [rotateDuckDBWriter, h3]⟩⟩
        · exact ⟨⟨[], by simp [rotateDuckDBWriter, h3]⟩, ⟨[], by simp [rotateDuckDBWriter, h3]⟩⟩
      · rw [if_neg h2] at e; simp at e

/-!  Claim theorems. -/

/-- C10: calling `RotateWriter` on a `FileManager` whose `recordCount` is
`0` is a no-op: it returns no error and leaves the state unchanged,
regardless of the configured format (the early return precedes the format
switch). -/
theorem c10_rotateWriter_noop (fm : FileManager) (h : fm.recordCount = 0) :
    RotateWriter fm = Except.ok fm := by
  simp [RotateWriter, h]

theorem c10_rotateWriter_noop_witness :
    RotateWriter (NewFileManager "avro" 5) = Except.ok (NewFileManager "avro" 5) :=
  c10_rotateWriter_noop (NewFileManager "avro" 5) rfl

/-- C6: closing a `FileManager` that never saw a `WriteRecord` still
writes a valid run metadata file with an empty partitions list, creates no
physical data file, and returns no error. -/
theorem c6_empty_run_close (fmt : String) (m : Int) :
    (FileManager.Close (NewFileManager fmt m) true).1.partitions = [] ∧
    (FileManager.Close (NewFileManager fmt m) true).1.dataFiles = [] ∧
    (FileManager.Close (NewFileManager fmt m) true).1.metadataFileWritten = true ∧
    (FileManager.Close (NewFileManager fmt m) true).2 = none := by
  refine ⟨?_, ?_, ?_, ?_⟩ <;> simp [FileManager.Close, NewFileManager]

/-- C5 (counterexample to the claim as stated): when writing the final
`export_metadata.json` fails, `FileManager.Close` does return the error,
but the exporter's `Close` (`RedisExporter.Close`) only logs it and
returns the Redis client's close result — here `none`, i.e. no error
reaches the caller of the exporter's `Close`. -/
theorem c5_close_error_cex :
    (FileManager.Close (NewFileManager "csv" 10) false).2 =
      some "failed to write metadata" ∧
    (RedisExporter.Close (NewFileManager "csv" 10) false none).2 = none :=
  ⟨rfl, rfl⟩

/-- C5 (amended): a metadata-finalization failure is returned as an error
by `FileManager.Close` (and already-rotated partitions and data files are
preserved, not invalidated), but `RedisExporter.Close` merely logs that
error and returns only the Redis client's close error. -/
theorem c5_close_error_amended (fm : FileManager) (clientErr : Option String) :
    (FileManager.Close fm false).2 = some "failed to write metadata" ∧
    (∃ tl, (FileManager.Close fm false).1.partitions = fm.partitions ++ tl) ∧
    (∃ fs, (FileManager.Close fm false).1.dataFiles = fm.dataFiles ++ fs) ∧
    (RedisExporter.Close fm false clientErr).2 = clientErr := by
  refine ⟨rfl, ?_, ?_, rfl⟩ <;>
  · unfold FileManager.Close
    by_cases hrc : 0 < fm.recordCount
    · rw [if_pos hrc]
      rcases e : RotateWriter fm with err | g
      · exact ⟨[], by simp⟩
      · obtain ⟨⟨tl, htl⟩, ⟨fs, hfs⟩⟩ := rotateWriter_extends fm g e
        first
        | exact ⟨tl, by simp [htl]⟩
        | exact ⟨fs, by simp [hfs]⟩
    · rw [if_neg hrc]
      exact ⟨[], by simp⟩

/-- C4 (counterexample to the claim as stated): exporting a key of
unrecognized type `stream` with `exportKey` succeeds (non-fatal, run
continues) but emits ONE record to the sink — the per-key summary record
`size=0` — not zero records. -/
theorem c4_unrecognized_type_cex :
    isOkFM (exportKey (NewFileManager "csv" 1000) "k"
      (RedisValue.other "stream") 0 "ts") = true ∧
    rowsWritten (exportKey (NewFileManager "csv" 1000) "k"
      (RedisValue.other "stream") 0 "ts") = 1 :=
  ⟨rfl, rfl⟩

/-- C4 (amended): for a key of unrecognized declared type, the flattener
`exportKeyData` emits zero records and returns `(0, nil)` (a silent,
non-fatal skip), and `exportKey` then succeeds, writing exactly one
per-key summary record whose value is `size=0`; the run continues. -/
lemma exportKey_other_ok (fm : FileManager) (key tn ts : String)
    (ttlNs : Int) (h : fm.format = "csv") :
    ∃ fm', exportKey fm key (RedisValue.other tn) ttlNs ts = Except.ok fm' ∧
      fm'.rows = fm.rows ++ [toRow
        { key := key, typ := tn, value := "size=" ++ toString (0 : Int),
          ttlSeconds := if 0 < ttlNs then durSeconds ttlNs else -1,
          exportedAt := ts } fm'.partitionID] := by
  have hstep : exportKey fm key (RedisValue.other tn) ttlNs ts =
      WriteRecord fm
        { key := key, typ := tn, value := "size=" ++ toString (0 : Int),
          ttlSeconds := if 0 < ttlNs then durSeconds ttlNs else -1,
          exportedAt := ts } := rfl
  obtain ⟨fm', e, hrows, _, _⟩ := writeRecord_csv_ok fm
    { key := key, typ := tn, value := "size=" ++ toString (0 : Int),
      ttlSeconds := if 0 < ttlNs then durSeconds ttlNs else -1,
      exportedAt := ts } h
  exact ⟨fm', by rw [hstep, e], hrows⟩

theorem c4_unrecognized_type_amended (fm : FileManager) (key tn ts : String)
    (ttlNs : Int) (h : fm.format = "csv") :
    exportKeyData fm key (RedisValue.other tn) ts = Except.ok (fm, 0) ∧
    (∃ fm' row, exportKey fm key (RedisValue.other tn) ttlNs ts = Except.ok fm' ∧
      fm'.rows = fm.rows ++ [row] ∧ row.key = key ∧ row.typ = tn ∧
      row.value = "size=0") := by
  obtain ⟨fm', e, hrows⟩ := exportKey_other_ok fm key tn ts ttlNs h
  exact ⟨rfl, fm', _, e, hrows, rfl, rfl, rfl⟩

theorem c4_unrecognized_type_amended_witness :
    (NewFileManager "csv" 1000).format = "csv" ∧
    (exportKeyData (NewFileManager "csv" 1000) "k" (RedisValue.other "stream") "ts" =
        Except.ok (NewFileManager "csv" 1000, 0) ∧
      (∃ fm' row,
        exportKey (NewFileManager "csv" 1000) "k" (RedisValue.other "stream") 0 "ts" =
          Except.ok fm' ∧
        fm'.rows = (NewFileManager "csv" 1000).rows ++ [row] ∧ row.key = "k" ∧
        row.typ = "stream" ∧ row.value = "size=0")) :=
  ⟨rfl, c4_unrecognized_type_amended (NewFileManager "csv" 1000) "k" "stream" "ts" 0 rfl⟩

/-- C7: TTL normalization.  In the metadata batcher record
(`keysOnlyRecord`, used by both keys-only export loops) and in the
summary record written by `exportKey`, a store-reported TTL `<= 0`
becomes the `-1` sentinel and a positive TTL is truncated to whole
seconds (`Int.tdiv ttlNs 10^9`, Go's `int64(ttl.Seconds())`). -/
theorem c7_ttl_normalization (key keyType tn ts : String) (ttlNs : Int) :
    ((ttlNs ≤ 0 → (keysOnlyRecord key keyType ttlNs ts).ttlSeconds = -1) ∧
     (0 < ttlNs → (keysOnlyRecord key keyType ttlNs ts).ttlSeconds =
        Int.tdiv ttlNs 1000000000)) ∧
    (∃ fm' row, exportKey (NewFileManager "csv" 1000) key
        (RedisValue.other tn) ttlNs ts = Except.ok fm' ∧
      fm'.rows = [row] ∧
      row.ttlSeconds = (if 0 < ttlNs then Int.tdiv ttlNs 1000000000 else -1)) := by
  refine ⟨⟨?_, ?_⟩, ?_⟩
  · intro hle
    simp [keysOnlyRecord, if_neg (not_lt.mpr hle)]
  · intro hpos
    simp [keysOnlyRecord, if_pos hpos, durSeconds]
  · obtain ⟨fm', e, hrows⟩ :=
      exportKey_other_ok (NewFileManager "csv" 1000) key tn ts ttlNs rfl
    refine ⟨fm', _, e, by simpa [NewFileManager] using hrows, ?_⟩
    simp [toRow, durSeconds]

theorem c7_ttl_normalization_witness :
    ((2700000000000 : Int) ≤ 0 → False) ∧
    (keysOnlyRecord "k" "string" 2700000000000 "ts").ttlSeconds = 2700 ∧
    (keysOnlyRecord "k" "string" (-5) "ts").ttlSeconds = -1 := by
  refine ⟨by decide, ?_, ?_⟩
  · have h := (c7_ttl_normalization "k" "string" "t" "ts" 2700000000000).1.2 (by decide)
    rw [h]; decide
  · exact (c7_ttl_normalization "k" "string" "t" "ts" (-5)).1.1 (by decide)

/-- C8: flattening a hash key `k` whose sub-scan yields exactly the
fields `a:"1"` and `b:"2"` (one page, alternating field/value positions)
emits exactly two `hash_field` records with keys `k:field:a`, `k:field:b`
and values `"1"`, `"2"`, and returns the aggregate size 4. -/
theorem c8_hash_flatten (k ts : String) :
    ∃ fm', exportKeyData (NewFileManager "csv" 1000) k
        (RedisValue.hash [["a", "1", "b", "2"]]) ts = Except.ok (fm', 4) ∧
      fm'.rows = [
        { key := k ++ ":field:" ++ "a", typ := "hash_field", value := "1",
          ttlSeconds := -1, exportedAt := ts, partitionId := 1 },
        { key := k ++ ":field:" ++ "b", typ := "hash_field", value := "2",
          ttlSeconds := -1, exportedAt := ts, partitionId := 1 } ] :=
  ⟨_, rfl, rfl⟩

/-!  C3 helper lemmas: none of the three per-key export loops can
propagate a sink write error; only a scan error aborts a run. -/

lemma exportKeysOnlyModel_ok (ts : String) (pages : List (Except String (List KeyMeta)))
    (fm : FileManager) (c : Nat) (h : ∀ p ∈ pages, ∃ l, p = Except.ok l) :
    ∃ out, ExportKeysOnlyModel ts pages fm c = Except.ok out := by
  induction pages generalizing fm c with
  | nil => exact ⟨(fm, c), rfl⟩
  | cons p rest ih =>
    obtain ⟨l, rfl⟩ := h p (by simp)
    simp only [ExportKeysOnlyModel]
    exact ih _ _ (fun q hq => h q (by simp [hq]))

lemma exportKeysOnlyByPatternModel_ok (ts : String)
    (pages : List (Except String (List KeyMeta)))
    (fm : FileManager) (c : Nat) (h : ∀ p ∈ pages, ∃ l, p = Except.ok l) :
    ∃ out, ExportKeysOnlyByPatternModel ts pages fm c = Except.ok out := by
  induction pages generalizing fm c with
  | nil => exact ⟨(fm, c), rfl⟩
  | cons p rest ih =>
    obtain ⟨l, rfl⟩ := h p (by simp)
    simp only [ExportKeysOnlyByPatternModel]
    exact ih _ _ (fun q hq => h q (by simp [hq]))

lemma exportByPatternModel_ok (ts : String)
    (pages : List (Except String (List (String × RedisValue × Int))))
    (fm : FileManager) (c : Nat) (h : ∀ p ∈ pages, ∃ l, p = Except.ok l) :
    ∃ out, ExportByPatternModel ts pages fm c = Except.ok out := by
  induction pages generalizing fm c with
  | nil => exact ⟨(fm, c), rfl⟩
  | cons p rest ih =>
    obtain ⟨l, rfl⟩ := h p (by simp)
    simp only [ExportByPatternModel]
    exact ih _ _ (fun q hq => h q (by simp [hq]))

/-- C3 (counterexample to the claim as stated): a run of `ExportKeysOnly`
in which every sink `WriteRecord` call fails (here with the sink error
`unsupported format`, one of the spec's sink-error classes) still returns
no error — the failed writes are logged and skipped, both records are
silently dropped (`rows = []`, key count 0), and the run is not
aborted. -/
theorem c3_sink_error_not_propagated_cex :
    WriteRecord (NewFileManager "bogus" 10) (keysOnlyRecord "k1" "string" 0 "ts") =
      Except.error "unsupported format: bogus" ∧
    runObs (ExportKeysOnlyModel "ts"
      [Except.ok [{ key := "k1", typeResult := Except.ok "string", ttlResult := Except.ok 0 },
                  { key := "k2", typeResult := Except.ok "string", ttlResult := Except.ok 0 }]]
      (NewFileManager "bogus" 10) 0) = Except.ok ([], 0) :=
  ⟨rfl, rfl⟩

/-- C3 (amended): a failed sink `WriteRecord` never aborts a run in any
of the three export modes — `ExportKeysOnly` and `ExportByPattern` log
the error and skip the key, `ExportKeysOnlyByPattern` discards the error
outright — so whenever every scan call succeeds the run returns no error,
for every sink state (hence also when sink writes fail). -/
theorem c3_sink_error_amended (ts : String)
    (pages pagesB : List (Except String (List KeyMeta)))
    (pagesP : List (Except String (List (String × RedisValue × Int))))
    (fm fmB fmP : FileManager) (c cB cP : Nat)
    (h : ∀ p ∈ pages, ∃ l, p = Except.ok l)
    (hB : ∀ p ∈ pagesB, ∃ l, p = Except.ok l)
    (hP : ∀ p ∈ pagesP, ∃ l, p = Except.ok l) :
    (∃ out, ExportKeysOnlyModel ts pages fm c = Except.ok out) ∧
    (∃ outB, ExportKeysOnlyByPatternModel ts pagesB fmB cB = Except.ok outB) ∧
    (∃ outP, ExportByPatternModel ts pagesP fmP cP = Except.ok outP) :=
  ⟨exportKeysOnlyModel_ok ts pages fm c h,
   exportKeysOnlyByPatternModel_ok ts pagesB fmB cB hB,
   exportByPatternModel_ok ts pagesP fmP cP hP⟩

theorem c3_sink_error_amended_witness :
    (∃ out, ExportKeysOnlyModel "ts"
      [Except.ok [{ key := "k", typeResult := Except.ok "string", ttlResult := Except.ok 0 }]]
      (NewFileManager "bogus" 10) 0 = Except.ok out) ∧
    (∃ outB, ExportKeysOnlyByPatternModel "ts"
      [Except.ok [{ key := "k", typeResult := Except.ok "string", ttlResult := Except.ok 0 }]]
      (NewFileManager "bogus" 10) 0 = Except.ok outB) ∧
    (∃ outP, ExportByPatternModel "ts"
      [Except.ok [("k", RedisValue.str "v", 0)]]
      (NewFileManager "bogus" 10) 0 = Except.ok outP) :=
  c3_sink_error_amended "ts" _ _ _ _ _ _ 0 0 0
    (by intro p hp; simp at hp; exact ⟨_, hp⟩)
    (by intro p hp; simp at hp; exact ⟨_, hp⟩)
    (by intro p hp; simp at hp; exact ⟨_, hp⟩)

/-!  Invariant machinery for the rotation/accounting claims (C1, C2, C9),
for a run over the CSV write path with a maximum of `m >= 1` records per
partition.  After `k` successful writes from a fresh manager: the open
partition holds `(k-1) % m + 1` records, `(k-1) / m` partitions have been
completed (each with exactly `m` records), the partition id counter is
`(k-1) / m + 1`, and row `i` was stamped with partition id `i / m + 1`. -/

lemma mod_div_step (m j : Nat) (hm : 1 ≤ m) :
    (j % m + 1 < m → (j + 1) % m = j % m + 1 ∧ (j + 1) / m = j / m) ∧
    (j % m + 1 = m → (j + 1) % m = 0 ∧ (j + 1) / m = j / m + 1) := by
  have hj : m * (j / m) + j % m = j := Nat.div_add_mod j m
  constructor
  · intro h
    have h1 : j + 1 = m * (j / m) + (j % m + 1) := by omega
    constructor
    · rw [h1, Nat.mul_add_mod, Nat.mod_eq_of_lt h]
    · rw [h1, Nat.mul_add_div (by omega), Nat.div_eq_of_lt h, Nat.add_zero]
  · intro h
    have h1 : j + 1 = m * (j / m + 1) := by rw [Nat.mul_succ]; omega
    constructor
    · rw [h1]; exact Nat.mul_mod_right m _
    · rw [h1, Nat.mul_div_cancel_left _ (show 0 < m by omega)]

lemma getD_append_lt {α : Type} (l l' : List α) (d : α) (i : Nat)
    (h : i < l.length) : (l ++ l').getD i d = l.getD i d := by
  induction l generalizing i with
  | nil => simp at h
  | cons a t ih =>
    cases i with
    | zero => rfl
    | succ n => simpa using ih n (by simpa using h)

lemma getD_append_self {α : Type} (l : List α) (x d : α) :
    (l ++ [x]).getD l.length d = x := by
  induction l with
  | nil => rfl
  | cons a t ih =>
    simp only [List.cons_append, List.length_cons, List.getD_cons_succ]
    exact ih

lemma initializeWriter_csv_eq (fm : FileManager) (h : fm.format = "csv") :
    initializeWriter fm = Except.ok { fm with
      partitionID := fm.partitionID + 1, csvOpen := true,
      currentFileName := csvFileName (fm.partitionID + 1),
      dataFiles := fm.dataFiles ++ [csvFileName (fm.partitionID + 1)] } := by
  simp [initializeWriter, initializeCSVWriter, h]

lemma rotateWriter_csv_eq (fm : FileManager) (hf : fm.format = "csv")
    (hrc : ¬ fm.recordCount = 0) (hop : fm.csvOpen = true) :
    RotateWriter fm = Except.ok { fm with
      partitions := fm.partitions ++
        [{ partitionID := fm.partitionID, dataType := "redis_data",
           fileName := fm.currentFileName, recordCount := fm.recordCount }],
      csvOpen := false, recordCount := 0 } := by
  simp [RotateWriter, hrc, hf, rotateCSVWriter, hop]

lemma invCSV_init (m : Nat) : InvCSV m 0 (NewFileManager "csv" (m : Int)) := by
  refine ⟨rfl, rfl, rfl, rfl, ?_, ?_, Or.inl ⟨rfl, rfl, rfl, rfl, rfl⟩⟩
  · intro i hi; exact absurd hi (Nat.not_lt_zero i)
  · intro p hp; simp [NewFileManager] at hp

lemma invCSV_step (m k : Nat) (hm : 1 ≤ m) (fm : FileManager) (r : RedisRecord)
    (h : InvCSV m k fm) :
    ∃ fm', WriteRecord fm r = Except.ok fm' ∧ InvCSV m (k + 1) fm' := by
  obtain ⟨hfmt, hmax, hdb, hlen, hpid, hparts, hstate⟩ := h
  rcases hstate with ⟨hopen, hk0, hrc, hps, hpi⟩ | ⟨hopen, hk1, hrc, hlenp, hpi⟩
  · -- k = 0: the very first write opens partition 1 and cannot rotate.
    subst hk0
    have hnil : fm.rows = [] := List.length_eq_zero.mp hlen
    unfold WriteRecord
    rw [if_pos ⟨hopen, hdb⟩, initializeWriter_csv_eq fm hfmt]
    dsimp only
    rw [hmax, hrc, if_neg (not_le.mpr (by exact_mod_cast hm))]
    dsimp only
    rw [if_pos hfmt]
    refine ⟨_, rfl, ?_, ?_, ?_, ?_, ?_, ?_,
      Or.inr ⟨?_, ?_, ?_, ?_, ?_⟩⟩
    · simp [writeCSVRecord, hfmt]
    · simp [writeCSVRecord, hmax]
    · simp [writeCSVRecord, hdb]
    · simp [writeCSVRecord, hnil]
    · intro i hi
      have hi0 : i = 0 := by omega
      subst hi0
      simp [writeCSVRecord, hnil, toRow, hpi, Nat.zero_div]
    · intro p hp
      simp only [writeCSVRecord] at hp
      exact hparts p hp
    · simp [writeCSVRecord]
    · omega
    · simp [writeCSVRecord, hrc, Nat.zero_mod]
    · simp [writeCSVRecord, hps, Nat.zero_div]
    · simp [writeCSVRecord, hpi, Nat.zero_div]
  · -- k ≥ 1: the writer is open; rotate exactly when the partition is full.
    have hmod : (k - 1) % m < m := Nat.mod_lt _ (by omega)
    unfold WriteRecord
    rw [if_neg (by simp [hopen])]
    dsimp only
    rcases Nat.lt_or_ge ((k - 1) % m + 1) m with hlt | hge
    · -- room left in the open partition: no rotation
      have hstep := (mod_div_step m (k - 1) hm).1 hlt
      rw [hmax, hrc, if_neg (not_le.mpr (by exact_mod_cast hlt))]
      dsimp only
      rw [if_pos hfmt]
      refine ⟨_, rfl, ?_, ?_, ?_, ?_, ?_, ?_,
        Or.inr ⟨?_, ?_, ?_, ?_, ?_⟩⟩
      · simp [writeCSVRecord, hfmt]
      · simp [writeCSVRecord, hmax]
      · simp [writeCSVRecord, hdb]
      · simp [writeCSVRecord, hlen]
      · intro i hi
        rcases Nat.lt_or_ge i k with hik | hik
        · simp only [writeCSVRecord]
          rw [getD_append_lt _ _ _ _ (by omega : i < fm.rows.length)]
          exact hpid i hik
        · have hik' : i = k := by omega
          simp only [writeCSVRecord]
          rw [hik', ← hlen, getD_append_self]
          have hdiv := hstep.2
          rw [show k - 1 + 1 = k from by omega] at hdiv
          simp only [toRow]
          rw [hpi, hlen, hdiv]
      · intro p hp
        simp only [writeCSVRecord] at hp
        exact hparts p hp
      · simp [writeCSVRecord, hopen]
      · omega
      · simp only [writeCSVRecord, Nat.add_sub_cancel]
        rw [hrc]
        have hmodk := hstep.1
        rw [show k - 1 + 1 = k from by omega] at hmodk
        rw [hmodk]
        push_cast
        ring
      · simp only [writeCSVRecord, Nat.add_sub_cancel]
        rw [hlenp]
        have hdivk := hstep.2
        rw [show k - 1 + 1 = k from by omega] at hdivk
        omega
      · simp only [writeCSVRecord, Nat.add_sub_cancel]
        rw [hpi]
        have hdivk := hstep.2
        rw [show k - 1 + 1 = k from by omega] at hdivk
        rw [hdivk]
    · -- partition full: rotate, then open partition (k-1)/m + 2
      have heq : (k - 1) % m + 1 = m := by omega
      have hstep := (mod_div_step m (k - 1) hm).2 heq
      have hrcm : fm.recordCount = (m : Int) := by
        rw [hrc]; exact_mod_cast heq
      have hrcne : ¬ fm.recordCount = 0 := by
        rw [hrc]; positivity
      rw [hmax, hrc, if_pos (by exact_mod_cast hge),
        rotateWriter_csv_eq fm hfmt hrcne hopen]
      dsimp only
      rw [initializeWriter_csv_eq _ (by simp [hfmt])]
      dsimp only
      rw [if_pos (by simp [hfmt])]
      refine ⟨_, rfl, ?_, ?_, ?_, ?_, ?_, ?_,
        Or.inr ⟨?_, ?_, ?_, ?_, ?_⟩⟩
      · simp [writeCSVRecord, hfmt]
      · simp [writeCSVRecord, hmax]
      · simp [writeCSVRecord, hdb]
      · simp [writeCSVRecord, hlen]
      · intro i hi
        rcases Nat.lt_or_ge i k with hik | hik
        · simp only [writeCSVRecord]
          rw [getD_append_lt _ _ _ _ (by omega : i < fm.rows.length)]
          exact hpid i hik
        · have hik' : i = k := by omega
          simp only [writeCSVRecord]
          rw [hik', ← hlen, getD_append_self]
          have hdiv := hstep.2
          rw [show k - 1 + 1 = k from by omega] at hdiv
          simp only [toRow]
          rw [hpi, hlen, hdiv]
          push_cast
          ring
      · intro p hp
        simp only [writeCSVRecord, List.mem_append, List.mem_singleton] at hp
        rcases hp with hp | hp
        · exact hparts p hp
        · subst hp
          simpa using hrcm
      · simp [writeCSVRecord]
      · omega
      · simp only [writeCSVRecord, Nat.add_sub_cancel]
        have hmodk := hstep.1
        rw [show k - 1 + 1 = k from by omega] at hmodk
        rw [hmodk]
        simp
      · simp only [writeCSVRecord, Nat.add_sub_cancel, List.length_append,
          List.length_singleton]
        rw [hlenp]
        have hdivk := hstep.2
        rw [show k - 1 + 1 = k from by omega] at hdivk
        omega
      · simp only [writeCSVRecord, Nat.add_sub_cancel]
        rw [hpi]
        have hdivk := hstep.2
        rw [show k - 1 + 1 = k from by omega] at hdivk
        rw [hdivk]
        push_cast
        ring

lemma writeAll_invCSV (m : Nat) (hm : 1 ≤ m) (rs : List RedisRecord) :
    ∀ (k : Nat) (fm : FileManager), InvCSV m k fm →
      ∃ fm', writeAll fm rs = Except.ok fm' ∧ InvCSV m (k + rs.length) fm' := by
  induction rs with
  | nil =>
    intro k fm h
    exact ⟨fm, rfl, by simpa using h⟩
  | cons r rs ih =>
    intro k fm h
    obtain ⟨g, e, hg⟩ := invCSV_step m k hm fm r h
    obtain ⟨fm', e', hfm'⟩ := ih (k + 1) g hg
    refine ⟨fm', ?_, ?_⟩
    · unfold writeAll
      rw [e]
      exact e'
    · rw [(by simp [List.length_cons]; omega :
        k + (r :: rs).length = k + 1 + rs.length)]
      exact hfm'

lemma sumRecordCounts_append (ps qs : List PartitionInfo) :
    sumRecordCounts (ps ++ qs) = sumRecordCounts ps + sumRecordCounts qs := by
  simp [sumRecordCounts]

lemma sumRecordCounts_const (ps : List PartitionInfo) (c : Int)
    (h : ∀ p ∈ ps, p.recordCount = c) :
    sumRecordCounts ps = (ps.length : Int) * c := by
  induction ps with
  | nil => simp [sumRecordCounts]
  | cons p t ih =>
    have hp : p.recordCount = c := h p (List.mem_cons_self p t)
    have ht := ih (fun q hq => h q (List.mem_cons_of_mem p hq))
    simp only [sumRecordCounts, List.map_cons, List.sum_cons] at ht ⊢
    rw [hp, ht]
    simp only [List.length_cons]
    push_cast
    ring

/-- C1: for every configured maximum `m >= 1` and every sequence of
successful `WriteRecord` calls on a fresh CSV `FileManager`, all the
writes succeed, the number of completed-or-open partitions equals
`ceil(N / m)` (written `(N + m - 1) / m`), and no partition's record
count — completed or open — exceeds `m`.  (The rotation trigger is the
`recordCount >= MaxRecords` check in `WriteRecord`, taken before the
incoming record is accepted; see the `WriteRecord` definition.) -/
theorem c1_partition_threshold (m : Nat) (hm : 1 ≤ m) (rs : List RedisRecord) :
    ∃ fm', writeAll (NewFileManager "csv" (m : Int)) rs = Except.ok fm' ∧
      completedOrOpen fm' = (rs.length + m - 1) / m ∧
      (∀ p ∈ fm'.partitions, p.recordCount ≤ (m : Int)) ∧
      fm'.recordCount ≤ (m : Int) := by
  obtain ⟨fm', e, hinv⟩ :=
    writeAll_invCSV m hm rs 0 (NewFileManager "csv" (m : Int)) (invCSV_init m)
  rw [Nat.zero_add] at hinv
  obtain ⟨hfmt, hmax, hdb, hlen, hpid, hparts, hstate⟩ := hinv
  refine ⟨fm', e, ?_, ?_, ?_⟩
  · rcases hstate with ⟨hopen, hk0, hrc, hps, hpi⟩ | ⟨hopen, hk1, hrc, hlenp, hpi⟩
    · rw [completedOrOpen, hps, hopen, hdb, hk0]
      simp [Nat.div_eq_of_lt (show m - 1 < m by omega)]
    · rw [completedOrOpen, hlenp, hopen, hdb]
      rw [show rs.length + m - 1 = (rs.length - 1) + m from by omega,
        Nat.add_div_right _ (show 0 < m by omega)]
      simp
  · intro p hp
    rw [hparts p hp]
  · rcases hstate with ⟨hopen, hk0, hrc, hps, hpi⟩ | ⟨hopen, hk1, hrc, hlenp, hpi⟩
    · rw [hrc]
      exact_mod_cast Nat.zero_le m
    · rw [hrc]
      have : (rs.length - 1) % m < m := Nat.mod_lt _ (by omega)
      exact_mod_cast this

theorem c1_partition_threshold_witness :
    1 ≤ 2 ∧
    (∃ fm', writeAll (NewFileManager "csv" ((2 : Nat) : Int))
        [{ key := "a", typ := "string", value := "1", ttlSeconds := -1, exportedAt := "t" },
         { key := "b", typ := "string", value := "2", ttlSeconds := -1, exportedAt := "t" },
         { key := "c", typ := "string", value := "3", ttlSeconds := -1, exportedAt := "t" }] =
        Except.ok fm' ∧
      completedOrOpen fm' =
        (([{ key := "a", typ := "string", value := "1", ttlSeconds := -1, exportedAt := "t" },
           { key := "b", typ := "string", value := "2", ttlSeconds := -1, exportedAt := "t" },
           { key := "c", typ := "string", value := "3", ttlSeconds := -1, exportedAt := "t" }] :
             List RedisRecord).length + 2 - 1) / 2 ∧
      (∀ p ∈ fm'.partitions, p.recordCount ≤ ((2 : Nat) : Int)) ∧
      fm'.recordCount ≤ ((2 : Nat) : Int)) :=
  ⟨by decide, c1_partition_threshold 2 (by decide) _⟩

/-- C2: after a clean close of a fresh CSV `FileManager` on which every
`WriteRecord` call succeeded, the sum of the `record_count` fields over
all partitions recorded in the run metadata equals the total number of
records written. -/
theorem c2_metadata_completeness (m : Nat) (hm : 1 ≤ m) (rs : List RedisRecord) :
    ∃ fm', writeAll (NewFileManager "csv" (m : Int)) rs = Except.ok fm' ∧
      sumRecordCounts ((FileManager.Close fm' true).1.partitions) =
        (rs.length : Int) := by
  obtain ⟨fm', e, hinv⟩ :=
    writeAll_invCSV m hm rs 0 (NewFileManager "csv" (m : Int)) (invCSV_init m)
  rw [Nat.zero_add] at hinv
  obtain ⟨hfmt, hmax, hdb, hlen, hpid, hparts, hstate⟩ := hinv
  refine ⟨fm', e, ?_⟩
  rcases hstate with ⟨hopen, hk0, hrc, hps, hpi⟩ | ⟨hopen, hk1, hrc, hlenp, hpi⟩
  · have hcond : ¬ 0 < fm'.recordCount := by rw [hrc]; omega
    unfold FileManager.Close
    rw [if_neg hcond]
    simp [hps, sumRecordCounts, hk0]
  · have hrcne : ¬ fm'.recordCount = 0 := by
      rw [hrc]; positivity
    have hcond : 0 < fm'.recordCount := by rw [hrc]; positivity
    unfold FileManager.Close
    rw [if_pos hcond, rotateWriter_csv_eq fm' hfmt hrcne hopen]
    dsimp only
    rw [if_pos rfl]
    dsimp only
    rw [sumRecordCounts_append,
      sumRecordCounts_const fm'.partitions (m : Int) hparts, hlenp, hrc]
    have hj : m * ((rs.length - 1) / m) + (rs.length - 1) % m = rs.length - 1 :=
      Nat.div_add_mod _ m
    have hjI : (m : Int) * (((rs.length - 1) / m : Nat) : Int) +
        (((rs.length - 1) % m : Nat) : Int) = ((rs.length - 1 : Nat) : Int) := by
      exact_mod_cast hj
    have hlen1 : ((rs.length - 1 : Nat) : Int) = (rs.length : Int) - 1 := by
      omega
    rw [hlen1] at hjI
    simp only [sumRecordCounts, List.map_cons, List.map_nil, List.sum_cons,
      List.sum_nil]
    linear_combination hjI

theorem c2_metadata_completeness_witness :
    1 ≤ 3 ∧
    (∃ fm', writeAll (NewFileManager "csv" ((3 : Nat) : Int))
        [{ key := "x", typ := "string", value := "1", ttlSeconds := -1, exportedAt := "t" },
         { key := "y", typ := "string", value := "2", ttlSeconds := -1, exportedAt := "t" }] =
        Except.ok fm' ∧
      sumRecordCounts ((FileManager.Close fm' true).1.partitions) =
        (([{ key := "x", typ := "string", value := "1", ttlSeconds := -1, exportedAt := "t" },
           { key := "y", typ := "string", value := "2", ttlSeconds := -1, exportedAt := "t" }] :
             List RedisRecord).length : Int)) :=
  ⟨by decide, c2_metadata_completeness 3 (by decide) _⟩

/-- C9: within a run of successful writes on a fresh CSV manager, every
written row carries the partition id current at the time it was written
(row `i` carries `i / m + 1`), so the stamped `partition_id` is
monotonically non-decreasing across successive records and strictly
increases exactly when a rotation (a full partition, `m ∣ i+1`) occurred
between two successive records. -/
theorem c9_partition_id_monotone (m : Nat) (hm : 1 ≤ m) (rs : List RedisRecord) :
    ∃ fm', writeAll (NewFileManager "csv" (m : Int)) rs = Except.ok fm' ∧
      (∀ i, i < rs.length →
        (fm'.rows.getD i dummyRow).partitionId = ((i / m : Nat) : Int) + 1) ∧
      (∀ i j, i ≤ j → j < rs.length →
        (fm'.rows.getD i dummyRow).partitionId ≤
          (fm'.rows.getD j dummyRow).partitionId) ∧
      (∀ i, i + 1 < rs.length → (i + 1) % m = 0 →
        (fm'.rows.getD i dummyRow).partitionId <
          (fm'.rows.getD (i + 1) dummyRow).partitionId) := by
  obtain ⟨fm', e, hinv⟩ :=
    writeAll_invCSV m hm rs 0 (NewFileManager "csv" (m : Int)) (invCSV_init m)
  rw [Nat.zero_add] at hinv
  obtain ⟨hfmt, hmax, hdb, hlen, hpid, hparts, hstate⟩ := hinv
  refine ⟨fm', e, hpid, ?_, ?_⟩
  · intro i j hij hj
    rw [hpid i (by omega), hpid j hj]
    have : i / m ≤ j / m := Nat.div_le_div_right hij
    have : ((i / m : Nat) : Int) ≤ ((j / m : Nat) : Int) := by exact_mod_cast this
    omega
  · intro i hi1 hmod
    rw [hpid i (by omega), hpid (i + 1) hi1]
    have him : i % m < m := Nat.mod_lt _ (by omega)
    rcases Nat.lt_or_ge (i % m + 1) m with hlt | hge
    · exfalso
      have := (mod_div_step m i hm).1 hlt
      omega
    · have heq : i % m + 1 = m := by omega
      have := (mod_div_step m i hm).2 heq
      rw [this.2]
      push_cast
      omega

theorem c9_partition_id_monotone_witness :
    1 ≤ 2 ∧
    (∃ fm', writeAll (NewFileManager "csv" ((2 : Nat) : Int))
        [{ key := "a", typ := "string", value := "1", ttlSeconds := -1, exportedAt := "t" },
         { key := "b", typ := "string", value := "2", ttlSeconds := -1, exportedAt := "t" },
         { key := "c", typ := "string", value := "3", ttlSeconds := -1, exportedAt := "t" }] =
        Except.ok fm' ∧
      (∀ i, i < 3 →
        (fm'.rows.getD i dummyRow).partitionId = ((i / 2 : Nat) : Int) + 1) ∧
      (∀ i j, i ≤ j → j < 3 →
        (fm'.rows.getD i dummyRow).partitionId ≤
          (fm'.rows.getD j dummyRow).partitionId) ∧
      (∀ i, i + 1 < 3 → (i + 1) % 2 = 0 →
        (fm'.rows.getD i dummyRow).partitionId <
          (fm'.rows.getD (i + 1) dummyRow).partitionId)) :=
  ⟨by decide, c9_partition_id_monotone 2 (by decide) _⟩
